import Mathlib

set_option maxRecDepth 4000

/-!
Verification of the PBR-Demo repository (WebGL OBJ/MTL loader, PBR shader,
camera controller, render loop).

The development is a shallow embedding of the JavaScript sources:

* `src/js/shaders.js` — `parseOBJ`, `parseMTL`, `createGeometryWithMaterials`
  and the GLSL fragment shader (`fragmentShaderSource`);
* `src/public_html/js/helpers.js` — the `Camera` class;
* `src/unnamed/part_000` — the render loop (`render`, `drawPlant`,
  `setupPlantMaterial`) and its `CONFIG` constants.

Modelling conventions:

* JavaScript numbers are modelled as `JNum` (an exact rational or NaN);
  IEEE-754 rounding is not modelled.  Parsing of a numeric token is modelled
  at the token level: `Tok.num q` stands for a plain decimal numeral with
  value `q` (so `parseFloat` yields `q` and `parseInt` truncates `q` toward
  zero), `Tok.word s` for a token with no leading numeric prefix (both
  parsers yield NaN on it).
* `vn` records are divided by `sqrt(x*x+y*y+z*z)`, which is irrational in
  general; since no claim inspects normal values, the stored record keeps the
  components symbolically (`NRec.normalized x y z` denotes the triple scaled
  by the reciprocal length).
* Lexing (`trim`, `split(/\s+/)`, `split('/')`) is abstracted: a document is
  a list of already-split lines (`ObjLine` / `MtlLine`); blank lines,
  comments and unknown directives all behave as `skip`.
* Rational division is total (`x / 0 = 0`) whereas GLSL produces infinities;
  no claim below depends on a division by zero.
-/

/-- A JavaScript number: NaN or an exact rational value. -/
inductive JNum where
  | nan : JNum
  | val : ℚ → JNum
deriving DecidableEq, Repr

/-- JS subtraction with NaN propagation (used by the `vt` handler `1 - v`). -/
def JNum.sub : JNum → JNum → JNum
  | JNum.val a, JNum.val b => JNum.val (a - b)
  | _, _ => JNum.nan

/-- JS truthiness of a number: `0` and `NaN` are falsy, everything else truthy. -/
def jTruthy : JNum → Bool
  | JNum.nan => false
  | JNum.val q => decide (q ≠ 0)

/-- A lexical token: `num q` is a plain decimal numeral of value `q`,
`word s` a token without a numeric prefix (e.g. `"abc"` or `""`). -/
inductive Tok where
  | num : ℚ → Tok
  | word : String → Tok
deriving DecidableEq, Repr

/-- `parseFloat` on a token. -/
def parseFloatTok : Tok → JNum
  | Tok.num q => JNum.val q
  | Tok.word _ => JNum.nan

/-- `parseFloat` on a possibly missing token (`parseFloat(undefined) = NaN`). -/
def parseFloatOpt : Option Tok → JNum
  | some t => parseFloatTok t
  | none => JNum.nan

/-- Truncation toward zero, as JS `parseInt` applied to a decimal numeral. -/
def ratTrunc (q : ℚ) : Int := if 0 ≤ q then Int.floor q else -(Int.floor (-q))

/-- `parseInt(v) || 0` from the face-corner parser of `parseOBJ`
(line 382 of shaders.js): a non-numeric slot (including the empty string
between two slashes) gives NaN, coalesced to `0`. -/
def parseIntOr0 : Tok → Int
  | Tok.num q => ratTrunc q
  | Tok.word _ => 0

/-- `parseInt` on a possibly missing token, as a JS number (NaN when missing
or non-numeric); used by the `illum` handler of `parseMTL`. -/
def parseIntJ : Option Tok → JNum
  | some (Tok.num q) => JNum.val (ratTrunc q)
  | some (Tok.word _) => JNum.nan
  | none => JNum.nan

/-- The three slots of a face corner after
`const [v, t, n] = vert.split('/').map(v => parseInt(v) || 0)`:
slots beyond the split length are `undefined` (`none`). -/
structure CornerIdx where
  vert : Option Int
  tex : Option Int
  norm : Option Int
deriving DecidableEq, Repr

/-- Corner parsing: apply `parseInt(v) || 0` to each present slot. -/
def cornerIdx (c : List Tok) : CornerIdx :=
  { vert := (c.get? 0).map parseIntOr0
    tex := (c.get? 1).map parseIntOr0
    norm := (c.get? 2).map parseIntOr0 }

/-- One component of the vertex-deduplication key
`` `${posIndex}/${texIndex}/${normIndex}` ``: an integer, or the string
`"NaN"` (which arises as `array.length + undefined`). -/
inductive JKey where
  | nanKey : JKey
  | idx : Int → JKey
deriving DecidableEq, Repr

/-- Index resolution of `addVertex` (shaders.js lines 317-319):
`posIndex = posIndex > 0 ? posIndex : positions.length + posIndex`.
An `undefined` slot propagates to NaN. -/
def resolveIdx (len : Nat) : Option Int → JKey
  | none => JKey.nanKey
  | some i => if 0 < i then JKey.idx i else JKey.idx (len + i)

/-- JS array read with fallback, `arr[k] || dflt` (shaders.js lines 331-333):
a NaN or out-of-range subscript yields `undefined`, replaced by the default;
a present element is an array object, hence always truthy. -/
def fetchRec {α : Type} (arr : List α) (dflt : α) : JKey → α
  | JKey.nanKey => dflt
  | JKey.idx i => if 0 ≤ i then arr.getD i.toNat dflt else dflt

/-- A stored normal record: the raw index-0 sentinel, or the symbolic result
of normalising a parsed `vn` triple (shaders.js lines 366-368). -/
inductive NRec where
  | raw : List JNum → NRec
  | normalized : JNum → JNum → JNum → NRec
deriving DecidableEq, Repr

/-- A submesh span, as built by `startGeometry` (shaders.js lines 294-306). -/
structure Geom where
  material : Option String
  startIndex : Nat
  indexCount : Nat
deriving DecidableEq, Repr

/-- The mutable state of `parseOBJ` (shaders.js lines 276-288).  The extra
`trace` field is ghost instrumentation: one entry per `addVertex` call,
recording the resolved key and the returned output index. -/
structure ObjState where
  positions : List (List JNum)
  texcoords : List (JNum × JNum)
  normals : List NRec
  vertexMap : List ((JKey × JKey × JKey) × Nat)
  finalPositions : List JNum
  finalTexcoords : List JNum
  finalNormals : List NRec
  indices : List Nat
  geometries : List Geom
  geometry : Option Geom
  vertexCount : Nat
  trace : List ((JKey × JKey × JKey) × Nat)
deriving Repr

/-- Initial parser state: the three raw arrays start with an index-0 sentinel. -/
def initObjState : ObjState :=
  { positions := [[JNum.val 0, JNum.val 0, JNum.val 0]]
    texcoords := [(JNum.val 0, JNum.val 0)]
    normals := [NRec.raw [JNum.val 0, JNum.val 0, JNum.val 0]]
    vertexMap := []
    finalPositions := []
    finalTexcoords := []
    finalNormals := []
    indices := []
    geometries := []
    geometry := none
    vertexCount := 0
    trace := [] }

/-- `vertexMap.get(key)` on the association-list model of the `Map`. -/
def lookupKey : List ((JKey × JKey × JKey) × Nat) → (JKey × JKey × JKey) → Option Nat
  | [], _ => none
  | (k, i) :: tl, q => if k = q then some i else lookupKey tl q

/-- `addVertex(posIndex, texIndex, normIndex)` (shaders.js lines 315-341):
resolve the three indices, look the key up, and on a miss allocate the next
dense output index and copy the attribute data (with defaults). -/
def addVertex (s : ObjState) (c : CornerIdx) : ObjState × Nat :=
  let pKey := resolveIdx s.positions.length c.vert
  let tKey := resolveIdx s.texcoords.length c.tex
  let nKey := resolveIdx s.normals.length c.norm
  let key := (pKey, tKey, nKey)
  match lookupKey s.vertexMap key with
  | some i => ({ s with trace := s.trace ++ [(key, i)] }, i)
  | none =>
      let i := s.vertexCount
      let position := fetchRec s.positions [JNum.val 0, JNum.val 0, JNum.val 0] pKey
      let texcoord := fetchRec s.texcoords (JNum.val 0, JNum.val 0) tKey
      let normal := fetchRec s.normals (NRec.raw [JNum.val 0, JNum.val 1, JNum.val 0]) nKey
      ({ s with
          vertexMap := s.vertexMap ++ [(key, i)]
          vertexCount := i + 1
          finalPositions := s.finalPositions ++ position
          finalTexcoords := s.finalTexcoords ++ [texcoord.1, texcoord.2]
          finalNormals := s.finalNormals ++ [normal]
          trace := s.trace ++ [(key, i)] }, i)

/-- The span-closing half of `startGeometry` (also run at end of input,
shaders.js lines 402-408): set the open span's length to the distance from
its start to the current index count and keep it only if positive. -/
def closeG (s : ObjState) : ObjState :=
  match s.geometry with
  | none => s
  | some g =>
      let count := s.indices.length - g.startIndex
      if 0 < count then
        { s with geometries := s.geometries ++ [{ g with indexCount := count }] }
      else s

/-- `startGeometry(material)` (shaders.js lines 294-306). -/
def startGeometry (s : ObjState) (material : Option String) : ObjState :=
  let s2 := closeG s
  { s2 with geometry := some { material := material, startIndex := s2.indices.length, indexCount := 0 } }

/-- One fan triangle: push `addVertex(v0)`, `addVertex(vi)`, `addVertex(vi+1)`
(evaluated left to right) onto the index list. -/
def pushTri (s : ObjState) (c0 c1 c2 : CornerIdx) : ObjState :=
  let r0 := addVertex s c0
  let r1 := addVertex r0.1 c1
  let r2 := addVertex r1.1 c2
  { r2.1 with indices := r2.1.indices ++ [r0.2, r1.2, r2.2] }

/-- Fan triangulation `for (let i = 1; i < vertices.length - 1; i++)`
(shaders.js lines 387-397): the loop visits the consecutive pairs of the
tail of the corner list. -/
def addFace (s : ObjState) (cs : List CornerIdx) : ObjState :=
  match cs with
  | [] => s
  | c0 :: rest => (rest.zip rest.tail).foldl (fun t p => pushTri t c0 p.1 p.2) s

/-- One already-split OBJ line.  `skip` covers blank lines, `#` comments and
unrecognised directives, all of which leave the state unchanged. -/
inductive ObjLine where
  | v : List Tok → ObjLine
  | vt : List Tok → ObjLine
  | vn : List Tok → ObjLine
  | usemtl : Option String → ObjLine
  | face : List (List Tok) → ObjLine
  | skip : ObjLine
deriving DecidableEq, Repr

/-- The `switch (command)` body of `parseOBJ` (shaders.js lines 352-399). -/
def stepLine (s : ObjState) : ObjLine → ObjState
  | ObjLine.v ts =>
      { s with positions := s.positions ++ [(ts.take 3).map parseFloatTok] }
  | ObjLine.vt ts =>
      { s with texcoords := s.texcoords ++
          [(parseFloatOpt (ts.get? 0), JNum.sub (JNum.val 1) (parseFloatOpt (ts.get? 1)))] }
  | ObjLine.vn ts =>
      { s with normals := s.normals ++
          [NRec.normalized (parseFloatOpt (ts.get? 0)) (parseFloatOpt (ts.get? 1))
            (parseFloatOpt (ts.get? 2))] }
  | ObjLine.usemtl name => startGeometry s name
  | ObjLine.face cs =>
      let s2 := if s.geometry.isNone then startGeometry s (some "default") else s
      addFace s2 (cs.map cornerIdx)
  | ObjLine.skip => s

/-- Full parser state after a document, including the final span close. -/
def parseOBJState (lines : List ObjLine) : ObjState :=
  closeG (lines.foldl stepLine initObjState)

/-- The object returned by `parseOBJ` (shaders.js lines 410-416). -/
structure ObjResult where
  positions : List JNum
  texcoords : List JNum
  normals : List NRec
  indices : List Nat
  geometries : List Geom
deriving DecidableEq, Repr

/-- `parseOBJ(text)` (shaders.js lines 274-417). -/
def parseOBJ (lines : List ObjLine) : ObjResult :=
  let s := parseOBJState lines
  { positions := s.finalPositions
    texcoords := s.finalTexcoords
    normals := s.finalNormals
    indices := s.indices
    geometries := s.geometries }

/-- A parsed material object: every field optional, as built by the keyword
handlers of `parseMTL` (shaders.js lines 216-242).  Texture maps are
represented by the resolved path handed to the texture loader. -/
structure Mtl where
  shininess : Option JNum := none
  ambient : Option (List JNum) := none
  diffuse : Option (List JNum) := none
  specular : Option (List JNum) := none
  emissive : Option (List JNum) := none
  opticalDensity : Option JNum := none
  opacity : Option JNum := none
  illum : Option JNum := none
  map_Kd : Option String := none
  map_Bump : Option String := none
  map_Ks : Option String := none
deriving DecidableEq, Repr

/-- One already-split MTL line; `skipM` covers blanks, comments and unknown
keywords.  For the texture-map lines the payload is the joined path string
(`parts.join(' ')`). -/
inductive MtlLine where
  | newmtl : String → MtlLine
  | lNs : List Tok → MtlLine
  | lKa : List Tok → MtlLine
  | lKd : List Tok → MtlLine
  | lKs : List Tok → MtlLine
  | lKe : List Tok → MtlLine
  | lNi : List Tok → MtlLine
  | lD : List Tok → MtlLine
  | lIllum : List Tok → MtlLine
  | lMapKd : String → MtlLine
  | lMapBump : String → MtlLine
  | lMapKs : String → MtlLine
  | skipM : MtlLine
deriving DecidableEq, Repr

/-- `loadTextureFromPath` (shaders.js lines 245-249): replace backslashes and
prepend the fixed base directory. -/
def texPath (p : String) : String := "js/" ++ p.replace "\\" "/"

/-- Update (or append) the entry of a string-keyed object map, preserving the
first-insertion position of an existing key, as JS object assignment does. -/
def setMtlEntry : List (String × Mtl) → String → Mtl → List (String × Mtl)
  | [], n, m => [(n, m)]
  | (k, v) :: tl, n, m => if k = n then (n, m) :: tl else (k, v) :: setMtlEntry tl n m

/-- Lookup in the materials dictionary. -/
def getMtlEntry : List (String × Mtl) → String → Option Mtl
  | [], _ => none
  | (k, v) :: tl, n => if k = n then some v else getMtlEntry tl n

/-- State of `parseMTL`: the finished entries of the `materials` dictionary
plus the object currently referenced by the `material` variable (which is
also the dictionary entry for its name; mutations through `material` are
flushed into `done` at the next `newmtl` or at end of input). -/
structure MtlState where
  done : List (String × Mtl)
  current : Option (String × Mtl)

/-- Write the current material object back into the dictionary. -/
def flushMtl (st : MtlState) : List (String × Mtl) :=
  match st.current with
  | none => st.done
  | some (n, m) => setMtlEntry st.done n m

/-- Apply a property handler to the current material.  When no `newmtl` has
been seen, `material` is `undefined` and the property write throws a
`TypeError`, aborting the parse (`Except.error`). -/
def updCur (st : MtlState) (f : Mtl → Mtl) : Except Unit MtlState :=
  match st.current with
  | none => Except.error ()
  | some (n, m) => Except.ok { st with current := some (n, f m) }

/-- One line of `parseMTL` (shaders.js lines 216-263). -/
def stepMtlLine (st : MtlState) : MtlLine → Except Unit MtlState
  | MtlLine.newmtl n => Except.ok { done := flushMtl st, current := some (n, {}) }
  | MtlLine.lNs ts => updCur st (fun m => { m with shininess := some (parseFloatOpt (ts.get? 0)) })
  | MtlLine.lKa ts => updCur st (fun m => { m with ambient := some (ts.map parseFloatTok) })
  | MtlLine.lKd ts => updCur st (fun m => { m with diffuse := some (ts.map parseFloatTok) })
  | MtlLine.lKs ts => updCur st (fun m => { m with specular := some (ts.map parseFloatTok) })
  | MtlLine.lKe ts => updCur st (fun m => { m with emissive := some (ts.map parseFloatTok) })
  | MtlLine.lNi ts => updCur st (fun m => { m with opticalDensity := some (parseFloatOpt (ts.get? 0)) })
  | MtlLine.lD ts => updCur st (fun m => { m with opacity := some (parseFloatOpt (ts.get? 0)) })
  | MtlLine.lIllum ts => updCur st (fun m => { m with illum := some (parseIntJ (ts.get? 0)) })
  | MtlLine.lMapKd p => updCur st (fun m => { m with map_Kd := some (texPath p) })
  | MtlLine.lMapBump p => updCur st (fun m => { m with map_Bump := some (texPath p) })
  | MtlLine.lMapKs p => updCur st (fun m => { m with map_Ks := some (texPath p) })
  | MtlLine.skipM => Except.ok st

/-- The line loop of `parseMTL`. -/
def runMtl : MtlState → List MtlLine → Except Unit MtlState
  | st, [] => Except.ok st
  | st, l :: tl =>
      match stepMtlLine st l with
      | Except.ok st2 => runMtl st2 tl
      | Except.error e => Except.error e

/-- `parseMTL(gl, text)` (shaders.js lines 211-266). -/
def parseMTL (lines : List MtlLine) : Except Unit (List (String × Mtl)) :=
  (runMtl { done := [], current := none } lines).map flushMtl

/-- A resolved per-mesh material, after the default-substitution of
`createGeometryWithMaterials` (shaders.js lines 436-445).  The fields not
listed there are carried over verbatim by the object spread. -/
structure ResolvedMtl where
  shininess : JNum
  ambient : List JNum
  diffuse : List JNum
  specular : List JNum
  opacity : JNum
  illum : JNum
  emissive : Option (List JNum)
  opticalDensity : Option JNum
  map_Kd : Option String
  map_Bump : Option String
  map_Ks : Option String
deriving DecidableEq, Repr

/-- `x || d` for an optional numeric field: an absent field, NaN or 0 all
fall back to the default. -/
def jsOrNum (x : Option JNum) (d : ℚ) : JNum :=
  match x with
  | some v => if jTruthy v then v else JNum.val d
  | none => JNum.val d

/-- `x || d` for an optional array field: a present array (even empty) is
truthy, only an absent field falls back. -/
def jsOrVec (x : Option (List JNum)) (d : List JNum) : List JNum :=
  match x with
  | some v => v
  | none => d

/-- `x || d` for an always-present numeric value (used by
`setupPlantMaterial`, part_000 line 367). -/
def jsOrJNum (v : JNum) (d : ℚ) : JNum := if jTruthy v then v else JNum.val d

/-- The material construction of `createGeometryWithMaterials`
(shaders.js lines 436-445): spread of the looked-up object, then field-wise
`|| default` for the six listed fields. -/
def resolveMtl (m : Option Mtl) : ResolvedMtl :=
  { shininess := jsOrNum (m.bind Mtl.shininess) 32
    ambient := jsOrVec (m.bind Mtl.ambient) [JNum.val 1, JNum.val 1, JNum.val 1]
    diffuse := jsOrVec (m.bind Mtl.diffuse) [JNum.val 0.64, JNum.val 0.64, JNum.val 0.64]
    specular := jsOrVec (m.bind Mtl.specular) [JNum.val 0.2, JNum.val 0.2, JNum.val 0.2]
    opacity := jsOrNum (m.bind Mtl.opacity) 1
    illum := jsOrNum (m.bind Mtl.illum) 2
    emissive := m.bind Mtl.emissive
    opticalDensity := m.bind Mtl.opticalDensity
    map_Kd := m.bind Mtl.map_Kd
    map_Bump := m.bind Mtl.map_Bump
    map_Ks := m.bind Mtl.map_Ks }

/-- `materials[geom.material]`: a span whose material name is `undefined`
or absent from the dictionary yields `undefined`. -/
def lookupName (ms : List (String × Mtl)) : Option String → Option Mtl
  | none => none
  | some n => getMtlEntry ms n

/-- A mesh entry of the object returned by `createGeometryWithMaterials`. -/
structure GeoMesh where
  material : ResolvedMtl
  startIndex : Nat
  indexCount : Nat
deriving DecidableEq, Repr

/-- The object returned by `createGeometryWithMaterials` (shaders.js lines
426-450).  Indices go through a `Uint16Array`, i.e. are reduced mod 2^16;
the `Float32Array` quantisation of the attribute data is not modelled. -/
structure Geometry where
  positions : List JNum
  texcoords : List JNum
  normals : List NRec
  indices : List Nat
  meshes : List GeoMesh
deriving DecidableEq, Repr

/-- `createGeometryWithMaterials(gl, objData, materials)`. -/
def createGeometryWithMaterials (r : ObjResult) (ms : List (String × Mtl)) : Geometry :=
  { positions := r.positions
    texcoords := r.texcoords
    normals := r.normals
    indices := r.indices.map (fun i => i % 65536)
    meshes := r.geometries.map (fun g =>
      { material := resolveMtl (lookupName ms g.material)
        startIndex := g.startIndex
        indexCount := g.indexCount }) }

/-- A GLSL `vec3`, over exact rationals. -/
abbrev Vec3 := ℚ × ℚ × ℚ

/-- Componentwise vector addition. -/
def vadd (a b : Vec3) : Vec3 := (a.1 + b.1, a.2.1 + b.2.1, a.2.2 + b.2.2)

/-- Componentwise vector subtraction. -/
def vsub (a b : Vec3) : Vec3 := (a.1 - b.1, a.2.1 - b.2.1, a.2.2 - b.2.2)

/-- Componentwise vector product (GLSL `vec3 * vec3`). -/
def vmul (a b : Vec3) : Vec3 := (a.1 * b.1, a.2.1 * b.2.1, a.2.2 * b.2.2)

/-- Scalar times vector. -/
def vscale (t : ℚ) (a : Vec3) : Vec3 := (t * a.1, t * a.2.1, t * a.2.2)

/-- Vector divided by a scalar. -/
def vdiv (a : Vec3) (t : ℚ) : Vec3 := (a.1 / t, a.2.1 / t, a.2.2 / t)

/-- Dot product. -/
def dotV (a b : Vec3) : ℚ := a.1 * b.1 + a.2.1 * b.2.1 + a.2.2 * b.2.2

/-- `vec3(t)`. -/
def vconst (t : ℚ) : Vec3 := (t, t, t)

/-- GLSL `mix(a, b, t)` componentwise. -/
def mixV (a b : Vec3) (t : ℚ) : Vec3 := vadd (vscale (1 - t) a) (vscale t b)

/-- The shader constant `PI = 3.14159265359` (shaders.js line 62). -/
def shaderPI : ℚ := 3.14159265359

/-- GLSL `clamp`. -/
def clampQ (x lo hi : ℚ) : ℚ := max lo (min hi x)

/-- `DistributionGGX` (shaders.js lines 67-78). -/
def DistributionGGX (N H : Vec3) (roughness : ℚ) : ℚ :=
  let a := roughness * roughness
  let a2 := a * a
  let NdotH := max (dotV N H) 0
  let NdotH2 := NdotH * NdotH
  let nom := a2
  let denom0 := NdotH2 * (a2 - 1) + 1
  let denom := shaderPI * denom0 * denom0
  nom / denom

/-- `GeometrySchlickGGX` (shaders.js lines 81-89). -/
def GeometrySchlickGGX (NdotV roughness : ℚ) : ℚ :=
  let r := roughness + 1
  let k := (r * r) / 8
  let nom := NdotV
  let denom := NdotV * (1 - k) + k
  nom / denom

/-- `GeometrySmith` (shaders.js lines 92-99). -/
def GeometrySmith (N V L : Vec3) (roughness : ℚ) : ℚ :=
  let NdotV := max (dotV N V) 0
  let NdotL := max (dotV N L) 0
  let ggx2 := GeometrySchlickGGX NdotV roughness
  let ggx1 := GeometrySchlickGGX NdotL roughness
  ggx1 * ggx2

/-- `fresnelSchlick` (shaders.js lines 102-104). -/
def fresnelSchlick (cosTheta : ℚ) (F0 : Vec3) : Vec3 :=
  vadd F0 (vscale ((clampQ (1 - cosTheta) 0 1) ^ (5 : ℕ)) (vsub (vconst 1) F0))

/-- Per-fragment inputs of `main()` (shaders.js lines 106-154): the sampled
texture values and the already-normalised direction vectors N, V, L, H
(the `normalize` calls involve square roots and are left outside the model;
every theorem below holds for arbitrary vectors). -/
structure FragIn where
  albedo : Vec3
  metallic : ℚ
  roughness : ℚ
  ao : ℚ
  specularColor : Vec3
  N : Vec3
  V : Vec3
  L : Vec3
  H : Vec3
  lightColor : Vec3
  lightIntensity : ℚ
  ambientColor : Vec3
  ambientIntensity : ℚ

/-- `F0 = mix(vec3(0.04), albedo, metallic)` (shaders.js lines 126-127). -/
def shadeF0 (p : FragIn) : Vec3 := mixV (vconst 0.04) p.albedo p.metallic

/-- `F = fresnelSchlick(max(dot(H, V), 0.0), F0)` (shaders.js line 135). -/
def shadeF (p : FragIn) : Vec3 := fresnelSchlick (max (dotV p.H p.V) 0) (shadeF0 p)

/-- `radiance = uLightColor * uLightIntensity` (shaders.js line 130). -/
def shadeRadiance (p : FragIn) : Vec3 := vscale p.lightIntensity p.lightColor

/-- Cook-Torrance specular term (shaders.js lines 133-140). -/
def shadeSpecular (p : FragIn) : Vec3 :=
  let NDF := DistributionGGX p.N p.H p.roughness
  let G := GeometrySmith p.N p.V p.L p.roughness
  let numerator := vscale (NDF * G) (shadeF p)
  let denominator := 4 * max (dotV p.N p.V) 0 * max (dotV p.N p.L) 0 + 0.0001
  vdiv numerator denominator

/-- `kS = F` (shaders.js line 143). -/
def shadeKS (p : FragIn) : Vec3 := shadeF p

/-- The energy split `kD = vec3(1.0) - kS; kD *= 1.0 - metallic;`
(shaders.js lines 144-145), as a function of the Fresnel value. -/
def kdFactor (F : Vec3) (metallic : ℚ) : Vec3 := vscale (1 - metallic) (vsub (vconst 1) F)

/-- The fragment's `kD`. -/
def shadeKD (p : FragIn) : Vec3 := kdFactor (shadeKS p) p.metallic

/-- `NdotL = max(dot(N, L), 0.0)` (shaders.js line 147). -/
def shadeNdotL (p : FragIn) : ℚ := max (dotV p.N p.L) 0

/-- `Lo = (kD * albedo / PI + specular) * radiance * NdotL`
(shaders.js line 154). -/
def shadeLo (p : FragIn) : Vec3 :=
  vscale (shadeNdotL p)
    (vmul (vadd (vdiv (vmul (shadeKD p) p.albedo) shaderPI) (shadeSpecular p))
      (shadeRadiance p))

/-- The camera state and settings (helpers.js lines 156-178).  The
sensitivities and distance bounds are instance fields set in the
constructor. -/
structure CameraS where
  rotationX : ℚ
  rotationY : ℚ
  distance : ℚ
  positionX : ℚ
  positionY : ℚ
  ROTATION_SENSITIVITY : ℚ
  ZOOM_SENSITIVITY : ℚ
  PAN_SENSITIVITY : ℚ
  MAX_DISTANCE : ℚ
  MIN_DISTANCE : ℚ
  isPointerLocked : Bool
deriving Repr

/-- The `Camera` constructor state. -/
def initCamera : CameraS :=
  { rotationX := 0
    rotationY := 0
    distance := 50
    positionX := 0
    positionY := 0
    ROTATION_SENSITIVITY := 0.2
    ZOOM_SENSITIVITY := 0.1
    PAN_SENSITIVITY := 0.05
    MAX_DISTANCE := 10000
    MIN_DISTANCE := 0
    isPointerLocked := false }

/-- Input events handled by `initControls` (helpers.js lines 180-210).
`mousemove` carries `e.buttons` and the deltas `movementX`, `movementY`. -/
inductive CamEvent where
  | pointerlockchange : Bool → CamEvent
  | mousemove : Int → ℚ → ℚ → CamEvent
  | mousedown : CamEvent
  | contextmenu : CamEvent

/-- One event of the camera controller.  `mousedown` only requests pointer
lock (an external effect) and `contextmenu` only calls `preventDefault`, so
both leave the state unchanged; the lock flag changes on
`pointerlockchange`. -/
def camStep (c : CameraS) : CamEvent → CameraS
  | CamEvent.pointerlockchange l => { c with isPointerLocked := l }
  | CamEvent.mousedown => c
  | CamEvent.contextmenu => c
  | CamEvent.mousemove buttons dx dy =>
      if !c.isPointerLocked then c
      else if buttons = 1 then
        { c with
            rotationY := c.rotationY + dx * c.ROTATION_SENSITIVITY
            rotationX := max (-89) (min 89 (c.rotationX + dy * c.ROTATION_SENSITIVITY)) }
      else if buttons = 4 then
        { c with
            distance :=
              max c.MIN_DISTANCE (min c.MAX_DISTANCE (c.distance + dy * c.ZOOM_SENSITIVITY)) }
      else if buttons = 2 then
        { c with
            positionX := c.positionX - dx * c.PAN_SENSITIVITY
            positionY := c.positionY + dy * c.PAN_SENSITIVITY }
      else c

/-- `CONFIG.lightColor` (part_000 line 24). -/
def CONFIG_lightColor : Vec3 := (1, 0.95, 0.8)

/-- `CONFIG.lightIntensity` (part_000 line 25). -/
def CONFIG_lightIntensity : ℚ := 3.2

/-- `CONFIG.ambientColor` (part_000 line 31). -/
def CONFIG_ambientColor : Vec3 := (0.2, 0.3, 0.2)

/-- `CONFIG.ambientIntensity` (part_000 line 32). -/
def CONFIG_ambientIntensity : ℚ := 0.05

/-- The scene-level light/ambient uniform values as a tuple. -/
def CONFIG_lights : Vec3 × ℚ × Vec3 × ℚ :=
  (CONFIG_lightColor, CONFIG_lightIntensity, CONFIG_ambientColor, CONFIG_ambientIntensity)

/-- The claim-relevant subset of the shader program's uniform store.  Uniform
values persist across draw calls and frames.  (Matrix, camera-position and
light-direction uniforms involve trigonometry and are not claim-relevant,
so they are not modelled.) -/
structure GLUniforms where
  useSpecular : Int
  lightColor : Vec3
  lightIntensity : ℚ
  ambientColor : Vec3
  ambientIntensity : ℚ
  shininess : JNum
deriving DecidableEq, Repr

/-- The light/ambient uniform values of a uniform store. -/
def lightUniforms (u : GLUniforms) : Vec3 × ℚ × Vec3 × ℚ :=
  (u.lightColor, u.lightIntensity, u.ambientColor, u.ambientIntensity)

/-- A plant submesh as seen by `drawPlant`: the loader always attaches a
material object, but the loop guards with `if (mesh.material)`, so the field
is kept optional here. -/
structure PlantMesh where
  material : Option ResolvedMtl
  startIndex : Nat
  indexCount : Nat
deriving DecidableEq, Repr

/-- The meshes of a loaded `Geometry`, as handed to `drawPlant` (they always
carry a material object). -/
def toPlantMeshes (g : Geometry) : List PlantMesh :=
  g.meshes.map (fun m =>
    { material := some m.material, startIndex := m.startIndex, indexCount := m.indexCount })

/-- One recorded `drawElements` call with the uniform store at that moment. -/
structure DrawEvent where
  isPlant : Bool
  startIndex : Nat
  indexCount : Nat
  u : GLUniforms
deriving DecidableEq, Repr

/-- `indices.length` of the generated sphere:
`latitudeBands * longitudeBands` quads of 6 indices (part_000 lines 107-116). -/
def sphereIndexCount : Nat := 30 * 30 * 6

/-- The light/ambient part of `updateUniforms` (part_000 lines 286-290):
every frame re-uploads the `CONFIG` constants. -/
def updateUniforms (u : GLUniforms) : GLUniforms :=
  { u with
      lightColor := CONFIG_lightColor
      lightIntensity := CONFIG_lightIntensity
      ambientColor := CONFIG_ambientColor
      ambientIntensity := CONFIG_ambientIntensity }

/-- `setupPlantMaterial(mesh)` (part_000 lines 350-374): per-mesh shininess
(with `|| 32.0` coalescing) and the plant-specific light/ambient override.
Texture bindings and the metallic/roughness uniforms are not modelled. -/
def setupPlantMaterial (u : GLUniforms) (m : ResolvedMtl) : GLUniforms :=
  { u with
      shininess := jsOrJNum m.shininess 32
      lightColor := (0.4, 0.5, 0.3)
      lightIntensity := 2.2
      ambientColor := (0.15, 0.2, 0.15)
      ambientIntensity := 0.05 }

/-- One iteration of the `for (const mesh of plantModel.meshes)` loop
(part_000 lines 332-337). -/
def drawMeshStep (acc : GLUniforms × List DrawEvent) (mesh : PlantMesh) :
    GLUniforms × List DrawEvent :=
  let u := match mesh.material with
    | some m => setupPlantMaterial acc.1 m
    | none => acc.1
  (u, acc.2 ++ [{ isPlant := true, startIndex := mesh.startIndex,
                  indexCount := mesh.indexCount, u := u }])

/-- `drawPlant()` (part_000 lines 315-344): turn the specular toggle on, draw
every submesh, then restore the scene-level light/ambient constants. -/
def drawPlant (u0 : GLUniforms) (meshes : List PlantMesh) : GLUniforms × List DrawEvent :=
  let u1 : GLUniforms := { u0 with useSpecular := 1 }
  let r := meshes.foldl drawMeshStep (u1, [])
  ({ r.1 with
      lightColor := CONFIG_lightColor
      lightIntensity := CONFIG_lightIntensity
      ambientColor := CONFIG_ambientColor
      ambientIntensity := CONFIG_ambientIntensity }, r.2)

/-- The draw sequence of one `render(time)` frame (part_000 lines 226-241):
upload the scene uniforms, draw the sphere with the specular toggle off,
then draw the plant if it has loaded. -/
def renderFrame (u0 : GLUniforms) (plantModel : Option (List PlantMesh)) :
    GLUniforms × List DrawEvent :=
  let u1 := updateUniforms u0
  let u2 : GLUniforms := { u1 with useSpecular := 0 }
  let sphereEv : DrawEvent :=
    { isPlant := false, startIndex := 0, indexCount := sphereIndexCount, u := u2 }
  match plantModel with
  | none => (u2, [sphereEv])
  | some meshes =>
      let r := drawPlant u2 meshes
      (r.1, sphereEv :: r.2)

/-! ### Basic preservation lemmas for the OBJ parser -/

theorem addVertex_indices (s : ObjState) (c : CornerIdx) :
    ((addVertex s c).1).indices = s.indices := by
  unfold addVertex
  dsimp only
  split <;> rfl

theorem addVertex_positions (s : ObjState) (c : CornerIdx) :
    ((addVertex s c).1).positions = s.positions := by
  unfold addVertex
  dsimp only
  split <;> rfl

theorem addVertex_geometries (s : ObjState) (c : CornerIdx) :
    ((addVertex s c).1).geometries = s.geometries := by
  unfold addVertex
  dsimp only
  split <;> rfl

theorem addVertex_geometry (s : ObjState) (c : CornerIdx) :
    ((addVertex s c).1).geometry = s.geometry := by
  unfold addVertex
  dsimp only
  split <;> rfl

theorem pushTri_indices_len (s : ObjState) (c0 c1 c2 : CornerIdx) :
    (pushTri s c0 c1 c2).indices.length = s.indices.length + 3 := by
  simp [pushTri, addVertex_indices]

theorem pushTri_positions (s : ObjState) (c0 c1 c2 : CornerIdx) :
    (pushTri s c0 c1 c2).positions = s.positions := by
  simp [pushTri, addVertex_positions]

theorem pushTri_geometries (s : ObjState) (c0 c1 c2 : CornerIdx) :
    (pushTri s c0 c1 c2).geometries = s.geometries := by
  simp [pushTri, addVertex_geometries]

theorem pushTri_geometry (s : ObjState) (c0 c1 c2 : CornerIdx) :
    (pushTri s c0 c1 c2).geometry = s.geometry := by
  simp [pushTri, addVertex_geometry]

theorem foldl_pushTri_indices_len (c0 : CornerIdx) (ps : List (CornerIdx × CornerIdx)) :
    ∀ s : ObjState,
      ((ps.foldl (fun t p => pushTri t c0 p.1 p.2) s).indices.length)
        = s.indices.length + 3 * ps.length := by
  induction ps with
  | nil => intro s; simp
  | cons p tl ih =>
      intro s
      rw [List.foldl_cons, ih, pushTri_indices_len]
      simp only [List.length_cons]
      ring

theorem foldl_pushTri_positions (c0 : CornerIdx) (ps : List (CornerIdx × CornerIdx)) :
    ∀ s : ObjState,
      ((ps.foldl (fun t p => pushTri t c0 p.1 p.2) s).positions) = s.positions := by
  induction ps with
  | nil => intro s; rfl
  | cons p tl ih => intro s; rw [List.foldl_cons, ih, pushTri_positions]

theorem foldl_pushTri_geometries (c0 : CornerIdx) (ps : List (CornerIdx × CornerIdx)) :
    ∀ s : ObjState,
      ((ps.foldl (fun t p => pushTri t c0 p.1 p.2) s).geometries) = s.geometries := by
  induction ps with
  | nil => intro s; rfl
  | cons p tl ih => intro s; rw [List.foldl_cons, ih, pushTri_geometries]

theorem foldl_pushTri_geometry (c0 : CornerIdx) (ps : List (CornerIdx × CornerIdx)) :
    ∀ s : ObjState,
      ((ps.foldl (fun t p => pushTri t c0 p.1 p.2) s).geometry) = s.geometry := by
  induction ps with
  | nil => intro s; rfl
  | cons p tl ih => intro s; rw [List.foldl_cons, ih, pushTri_geometry]

theorem addFace_indices_len (s : ObjState) (cs : List CornerIdx) :
    (addFace s cs).indices.length = s.indices.length + 3 * (cs.length - 2) := by
  cases cs with
  | nil => simp [addFace]
  | cons c0 rest =>
      rw [addFace, foldl_pushTri_indices_len]
      have h : (rest.zip rest.tail).length = rest.length - 1 := by
        rw [List.length_zip, List.length_tail]
        omega
      rw [h]
      simp only [List.length_cons]
      congr 1

theorem addFace_positions (s : ObjState) (cs : List CornerIdx) :
    (addFace s cs).positions = s.positions := by
  cases cs with
  | nil => rfl
  | cons c0 rest => rw [addFace, foldl_pushTri_positions]

theorem addFace_geometries (s : ObjState) (cs : List CornerIdx) :
    (addFace s cs).geometries = s.geometries := by
  cases cs with
  | nil => rfl
  | cons c0 rest => rw [addFace, foldl_pushTri_geometries]

theorem addFace_geometry (s : ObjState) (cs : List CornerIdx) :
    (addFace s cs).geometry = s.geometry := by
  cases cs with
  | nil => rfl
  | cons c0 rest => rw [addFace, foldl_pushTri_geometry]

theorem closeG_indices (s : ObjState) : (closeG s).indices = s.indices := by
  unfold closeG
  split
  case _ => rfl
  case _ =>
    dsimp only
    split <;> rfl

theorem closeG_positions (s : ObjState) : (closeG s).positions = s.positions := by
  unfold closeG
  split
  case _ => rfl
  case _ =>
    dsimp only
    split <;> rfl

theorem startGeometry_indices (s : ObjState) (m : Option String) :
    (startGeometry s m).indices = s.indices := by
  simp [startGeometry, closeG_indices]

theorem startGeometry_positions (s : ObjState) (m : Option String) :
    (startGeometry s m).positions = s.positions := by
  simp [startGeometry, closeG_positions]

/-! ### Claim C1: triangle count of the fan triangulation -/

/-- Number of triangles a line contributes: `k - 2` for a face of `k`
corners (truncated subtraction), `0` otherwise. -/
def lineTris : ObjLine → Nat
  | ObjLine.face cs => cs.length - 2
  | _ => 0

/-- The corner counts of the face records of a document, in order. -/
def faceArities (lines : List ObjLine) : List Nat :=
  lines.filterMap fun l =>
    match l with
    | ObjLine.face cs => some cs.length
    | _ => none

theorem stepLine_indices_len (s : ObjState) (l : ObjLine) :
    (stepLine s l).indices.length = s.indices.length + 3 * lineTris l := by
  cases l with
  | v ts => simp [stepLine, lineTris]
  | vt ts => simp [stepLine, lineTris]
  | vn ts => simp [stepLine, lineTris]
  | usemtl m => simp [stepLine, lineTris, startGeometry_indices]
  | skip => simp [stepLine, lineTris]
  | face cs =>
      rw [stepLine, addFace_indices_len, lineTris]
      by_cases h : (s.geometry).isNone
      · simp [h, startGeometry_indices]
      · simp [h]

theorem foldl_stepLine_indices_len (lines : List ObjLine) :
    ∀ s : ObjState,
      (lines.foldl stepLine s).indices.length
        = s.indices.length + 3 * (lines.map lineTris).sum := by
  induction lines with
  | nil => intro s; simp
  | cons l tl ih =>
      intro s
      rw [List.foldl_cons, ih, stepLine_indices_len, List.map_cons, List.sum_cons]
      ring

theorem sum_lineTris_eq (lines : List ObjLine) :
    (lines.map lineTris).sum = ((faceArities lines).map (fun c => c - 2)).sum := by
  induction lines with
  | nil => rfl
  | cons l tl ih =>
      cases l <;> simp [faceArities, lineTris, List.filterMap_cons] at ih ⊢ <;> omega

theorem parseOBJ_indices_len (lines : List ObjLine) :
    (parseOBJ lines).indices.length
      = 3 * ((faceArities lines).map (fun c => c - 2)).sum := by
  show (parseOBJState lines).indices.length = _
  rw [parseOBJState, closeG_indices, foldl_stepLine_indices_len, sum_lineTris_eq]
  simp [initObjState]

/-- Claim C1: for every mesh document whose faces all have at least 3
corners, the number of emitted indices is three times the sum over faces of
(corner count - 2), i.e. the triangle count (indices length divided by 3)
equals that sum, as produced by the fan triangulation. -/
theorem C1_fan_triangulation_count (lines : List ObjLine)
    (h : ∀ c ∈ faceArities lines, 3 ≤ c) :
    (parseOBJ lines).indices.length
        = 3 * ((faceArities lines).map (fun c => c - 2)).sum ∧
    (parseOBJ lines).indices.length / 3
        = ((faceArities lines).map (fun c => c - 2)).sum := by
  refine ⟨parseOBJ_indices_len lines, ?_⟩
  rw [parseOBJ_indices_len]
  omega

/-- A small document with a quad face and a triangle face (arities 4 and 3). -/
def c1doc : List ObjLine :=
  [ObjLine.v [Tok.num 0, Tok.num 0, Tok.num 0],
   ObjLine.v [Tok.num 1, Tok.num 0, Tok.num 0],
   ObjLine.v [Tok.num 1, Tok.num 1, Tok.num 0],
   ObjLine.v [Tok.num 0, Tok.num 1, Tok.num 0],
   ObjLine.face [[Tok.num 1], [Tok.num 2], [Tok.num 3], [Tok.num 4]],
   ObjLine.face [[Tok.num 1], [Tok.num 2], [Tok.num 3]]]

/-- Witness for C1 at a concrete document: (4-2) + (3-2) = 3 triangles. -/
theorem C1_fan_triangulation_count_witness :
    (∀ c ∈ faceArities c1doc, 3 ≤ c) ∧
    ((parseOBJ c1doc).indices.length
        = 3 * ((faceArities c1doc).map (fun c => c - 2)).sum ∧
     (parseOBJ c1doc).indices.length / 3
        = ((faceArities c1doc).map (fun c => c - 2)).sum) :=
  ⟨by decide, C1_fan_triangulation_count c1doc (by decide)⟩

/-! ### Claim C3: submesh spans partition the index range -/

/-- The span list tiles the index interval from `a` to `b`: consecutive
spans are contiguous, every span has positive length, the first starts at
`a` and the last ends at `b`. -/
def spansChain : List Geom → Nat → Nat → Prop
  | [], a, b => a = b
  | g :: tl, a, b => g.startIndex = a ∧ 0 < g.indexCount ∧ spansChain tl (a + g.indexCount) b

theorem spansChain_append (gs : List Geom) (g : Geom) :
    ∀ a b : Nat, spansChain gs a b → g.startIndex = b → 0 < g.indexCount →
      spansChain (gs ++ [g]) a (b + g.indexCount) := by
  induction gs with
  | nil =>
      intro a b h1 h2 h3
      subst h1
      exact ⟨h2, h3, rfl⟩
  | cons x tl ih =>
      intro a b h1 h2 h3
      obtain ⟨hx, hpos, hrest⟩ := h1
      exact ⟨hx, hpos, ih _ _ hrest h2 h3⟩

/-- Parser-state invariant for the span structure: while no span is open the
output is empty, and while one is open the closed spans tile `[0,
geometry.startIndex)` with the open span's start within the index list. -/
def spanInv (s : ObjState) : Prop :=
  (s.geometry = none → s.geometries = [] ∧ s.indices = []) ∧
  (∀ g, s.geometry = some g →
    spansChain s.geometries 0 g.startIndex ∧ g.startIndex ≤ s.indices.length)

theorem closeG_chain (s : ObjState) (h : spanInv s) :
    spansChain (closeG s).geometries 0 (closeG s).indices.length := by
  obtain ⟨hnone, hsome⟩ := h
  unfold closeG
  split
  case _ hg =>
      obtain ⟨h1, h2⟩ := hnone hg
      rw [h1, h2]
      simp [spansChain]
  case _ g hg =>
      obtain ⟨hchain, hle⟩ := hsome g hg
      dsimp only
      split
      case _ hc =>
        have heq : g.startIndex + (s.indices.length - g.startIndex) = s.indices.length := by
          omega
        have happ := spansChain_append s.geometries
          { material := g.material, startIndex := g.startIndex,
            indexCount := s.indices.length - g.startIndex } 0 g.startIndex hchain rfl hc
        rw [heq] at happ
        exact happ
      case _ hc =>
        have heq : g.startIndex = s.indices.length := by omega
        rw [← heq]
        exact hchain

theorem startGeometry_spanInv (s : ObjState) (m : Option String) (h : spanInv s) :
    spanInv (startGeometry s m) := by
  constructor
  · intro hg
    simp [startGeometry] at hg
  · intro g hg
    simp only [startGeometry] at hg
    have hg2 := Option.some.inj hg
    rw [← hg2]
    exact ⟨closeG_chain s h, le_refl _⟩

theorem addFace_spanInv (s : ObjState) (cs : List CornerIdx) (h : spanInv s)
    (hg : s.geometry.isSome = true) : spanInv (addFace s cs) := by
  constructor
  · intro h0
    rw [addFace_geometry] at h0
    rw [h0] at hg
    cases hg
  · intro g hgg
    rw [addFace_geometry] at hgg
    obtain ⟨hchain, hle⟩ := h.2 g hgg
    rw [addFace_geometries]
    refine ⟨hchain, ?_⟩
    rw [addFace_indices_len]
    omega

theorem stepLine_spanInv (s : ObjState) (l : ObjLine) (h : spanInv s) :
    spanInv (stepLine s l) := by
  cases l with
  | v ts => exact h
  | vt ts => exact h
  | vn ts => exact h
  | skip => exact h
  | usemtl m => exact startGeometry_spanInv s m h
  | face cs =>
      show spanInv (addFace (if s.geometry.isNone then startGeometry s (some "default") else s)
        (cs.map cornerIdx))
      by_cases hn : s.geometry.isNone
      · rw [if_pos hn]
        refine addFace_spanInv _ _ (startGeometry_spanInv s _ h) ?_
        simp [startGeometry]
      · rw [if_neg hn]
        refine addFace_spanInv _ _ h ?_
        rw [Option.isSome_iff_ne_none]
        intro h0
        rw [h0] at hn
        exact hn rfl

theorem foldl_stepLine_spanInv (lines : List ObjLine) :
    ∀ s : ObjState, spanInv s → spanInv (lines.foldl stepLine s) := by
  induction lines with
  | nil => intro s h; exact h
  | cons l tl ih =>
      intro s h
      rw [List.foldl_cons]
      exact ih _ (stepLine_spanInv s l h)

/-- Claim C3: the submesh spans produced by the parser partition the index
interval `[0, totalIndexCount)` exactly, in document order: each span is the
contiguous range `[startIndex, startIndex + indexCount)`, consecutive spans
abut, the first starts at 0, the last ends at the total index count, and no
zero-length span appears in the output. -/
theorem C3_spans_partition (lines : List ObjLine) :
    spansChain (parseOBJ lines).geometries 0 (parseOBJ lines).indices.length := by
  have h0 : spanInv initObjState := by
    constructor
    · intro _
      exact ⟨rfl, rfl⟩
    · intro g hg
      cases hg
  show spansChain (parseOBJState lines).geometries 0 (parseOBJState lines).indices.length
  exact closeG_chain _ (foldl_stepLine_spanInv lines initObjState h0)

/-! ### Claim C2: vertex deduplication identity -/

theorem lookupKey_some_mem (m : List ((JKey × JKey × JKey) × Nat))
    (k : JKey × JKey × JKey) (i : Nat) (h : lookupKey m k = some i) : (k, i) ∈ m := by
  induction m with
  | nil => cases h
  | cons e tl ih =>
      obtain ⟨k2, i2⟩ := e
      rw [lookupKey] at h
      by_cases he : k2 = k
      · rw [if_pos he] at h
        injection h with h2
        subst he
        subst h2
        exact List.mem_cons_self _ _
      · rw [if_neg he] at h
        exact List.mem_cons_of_mem _ (ih h)

theorem lookupKey_none_not_mem (m : List ((JKey × JKey × JKey) × Nat))
    (k : JKey × JKey × JKey) (h : lookupKey m k = none) : k ∉ m.map Prod.fst := by
  induction m with
  | nil => simp
  | cons e tl ih =>
      obtain ⟨k2, i2⟩ := e
      rw [lookupKey] at h
      by_cases he : k2 = k
      · rw [if_pos he] at h
        cases h
      · rw [if_neg he] at h
        simp only [List.map_cons, List.mem_cons]
        intro hh
        cases hh with
        | inl h1 => exact he h1.symm
        | inr h2 => exact ih h h2

/-- Deduplication invariant of `addVertex`: the assigned output indices are
exactly `0, 1, ..., vertexCount-1` in insertion order, no key is inserted
twice, and every `addVertex` call (trace entry) returned the map entry of
its resolved key. -/
def mapInv (s : ObjState) : Prop :=
  s.vertexMap.map Prod.snd = List.range s.vertexCount ∧
  (s.vertexMap.map Prod.fst).Nodup ∧
  ∀ t ∈ s.trace, t ∈ s.vertexMap

theorem addVertex_mapInv (s : ObjState) (c : CornerIdx) (h : mapInv s) :
    mapInv ((addVertex s c).1) := by
  obtain ⟨hrange, hnodup, htrace⟩ := h
  unfold addVertex
  dsimp only
  split
  case _ i hl =>
      refine ⟨hrange, hnodup, ?_⟩
      intro t ht
      rcases List.mem_append.mp ht with h1 | h2
      · exact htrace t h1
      · have h3 : t = (_, i) := List.mem_singleton.mp h2
        rw [h3]
        exact lookupKey_some_mem _ _ _ hl
  case _ hl =>
      refine ⟨?_, ?_, ?_⟩
      · show (s.vertexMap ++ [_]).map Prod.snd = List.range (s.vertexCount + 1)
        rw [List.map_append, hrange, List.range_succ]
        rfl
      · show ((s.vertexMap ++ [_]).map Prod.fst).Nodup
        rw [List.map_append]
        simp only [List.nodup_append, List.map_cons, List.map_nil]
        refine ⟨hnodup, List.nodup_singleton _, ?_⟩
        intro a ha hb
        rw [List.mem_singleton.mp hb] at ha
        exact lookupKey_none_not_mem _ _ hl ha
      · intro t ht
        rcases List.mem_append.mp ht with h1 | h2
        · exact List.mem_append_left _ (htrace t h1)
        · rw [List.mem_singleton.mp h2]
          exact List.mem_append_right _ (List.mem_singleton.mpr rfl)

theorem pushTri_mapInv (s : ObjState) (c0 c1 c2 : CornerIdx) (h : mapInv s) :
    mapInv (pushTri s c0 c1 c2) :=
  addVertex_mapInv _ _ (addVertex_mapInv _ _ (addVertex_mapInv _ _ h))

theorem foldl_pushTri_mapInv (c0 : CornerIdx) (ps : List (CornerIdx × CornerIdx)) :
    ∀ s : ObjState, mapInv s →
      mapInv (ps.foldl (fun t p => pushTri t c0 p.1 p.2) s) := by
  induction ps with
  | nil => intro s h; exact h
  | cons p tl ih =>
      intro s h
      rw [List.foldl_cons]
      exact ih _ (pushTri_mapInv s c0 p.1 p.2 h)

theorem addFace_mapInv (s : ObjState) (cs : List CornerIdx) (h : mapInv s) :
    mapInv (addFace s cs) := by
  cases cs with
  | nil => exact h
  | cons c0 rest => exact foldl_pushTri_mapInv c0 _ s h

theorem closeG_mapInv (s : ObjState) (h : mapInv s) : mapInv (closeG s) := by
  unfold closeG
  split
  case _ => exact h
  case _ =>
      dsimp only
      split
      case _ => exact h
      case _ => exact h

theorem startGeometry_mapInv (s : ObjState) (m : Option String) (h : mapInv s) :
    mapInv (startGeometry s m) :=
  closeG_mapInv s h

theorem stepLine_mapInv (s : ObjState) (l : ObjLine) (h : mapInv s) :
    mapInv (stepLine s l) := by
  cases l with
  | v ts => exact h
  | vt ts => exact h
  | vn ts => exact h
  | skip => exact h
  | usemtl m => exact startGeometry_mapInv s m h
  | face cs =>
      show mapInv (addFace (if s.geometry.isNone then startGeometry s (some "default") else s)
        (cs.map cornerIdx))
      by_cases hn : s.geometry.isNone
      · rw [if_pos hn]
        exact addFace_mapInv _ _ (startGeometry_mapInv s _ h)
      · rw [if_neg hn]
        exact addFace_mapInv _ _ h

theorem parseOBJState_mapInv (lines : List ObjLine) : mapInv (parseOBJState lines) := by
  have h0 : mapInv initObjState := ⟨rfl, List.nodup_nil, by intro t ht; cases ht⟩
  have hfold : ∀ ls : List ObjLine, ∀ s : ObjState, mapInv s →
      mapInv (ls.foldl stepLine s) := by
    intro ls
    induction ls with
    | nil => intro s h; exact h
    | cons l tl ih =>
        intro s h
        rw [List.foldl_cons]
        exact ih _ (stepLine_mapInv s l h)
  exact closeG_mapInv _ (hfold lines initObjState h0)

theorem mapInv_entry_iff (s : ObjState) (h : mapInv s) :
    ∀ t1 ∈ s.vertexMap, ∀ t2 ∈ s.vertexMap, (t1.1 = t2.1 ↔ t1.2 = t2.2) := by
  obtain ⟨hrange, hnodup, _⟩ := h
  have hsnd : (s.vertexMap.map Prod.snd).Nodup := by
    rw [hrange]
    exact List.nodup_range _
  intro t1 h1 t2 h2
  constructor
  · intro hk
    have := List.inj_on_of_nodup_map hnodup h1 h2 hk
    rw [this]
  · intro hi
    have := List.inj_on_of_nodup_map hsnd h1 h2 hi
    rw [this]

/-- Claim C2 (amended): deduplication is keyed on the *resolved* index
triple.  Any two `addVertex` calls (face-corner references, possibly from
different points of the document) return the same output vertex index if and
only if their resolved `(pos, tex, norm)` key triples are equal. -/
theorem C2_dedup_resolved_triple (lines : List ObjLine) :
    ((parseOBJState lines).trace).Pairwise
      (fun t1 t2 => (t1.1 = t2.1 ↔ t1.2 = t2.2)) := by
  have hinv := parseOBJState_mapInv lines
  have hmem := hinv.2.2
  exact List.pairwise_of_forall_mem_list fun t1 h1 t2 h2 =>
    mapInv_entry_iff _ hinv t1 (hmem t1 h1) t2 (hmem t2 h2)

/-- The raw source triple of a face corner, with an absent texcoord/normal
slot read as 0 — the identity the specification ascribes to a vertex. -/
def srcTriple (c : List Tok) : Int × Int × Int :=
  ((cornerIdx c).vert.getD 0, (cornerIdx c).tex.getD 0, (cornerIdx c).norm.getD 0)

/-- The face-corner references of a document in the order the fan
triangulation visits them: the n-th entry of this list is the corner handed
to the n-th `addVertex` call, whose returned output index is the n-th entry
of the parser's index list. -/
def cornerRefs (lines : List ObjLine) : List (List Tok) :=
  lines.bind fun l =>
    match l with
    | ObjLine.face cs =>
        match cs with
        | [] => []
        | c0 :: rest => (rest.zip rest.tail).bind (fun p => [c0, p.1, p.2])
    | _ => []

/-- The corner `1//1`: position 1, texcoord slot empty (parsed to 0 by
`parseInt('') || 0`), normal 1. -/
def c2corner : List Tok := [Tok.num 1, Tok.word "", Tok.num 1]

/-- A document repeating the face `f 1//1 1//1 1//1` before and after a
`vt` record.  The texcoord index 0 is resolved by adding the *current*
texcoord array length, which changes in between. -/
def c2doc : List ObjLine :=
  [ObjLine.v [Tok.num 1, Tok.num 0, Tok.num 0],
   ObjLine.vn [Tok.num 0, Tok.num 1, Tok.num 0],
   ObjLine.face [c2corner, c2corner, c2corner],
   ObjLine.vt [Tok.num (1/2), Tok.num (1/2)],
   ObjLine.face [c2corner, c2corner, c2corner]]

/-- Claim C2 counterexample: the 1st and 4th face-corner references of
`c2doc` are literally the same corner `1//1` — identical source triples
(1, 0, 1) with the absent-as-0 reading — yet they resolve to the distinct
output vertex indices 0 and 1, because the defaulted texcoord index 0 is
resolved against the texcoord array length current at each reference. -/
theorem C2_source_triple_cex :
    (cornerRefs c2doc).get? 0 = some c2corner ∧
    (cornerRefs c2doc).get? 3 = some c2corner ∧
    srcTriple c2corner = (1, 0, 1) ∧
    (parseOBJ c2doc).indices.get? 0 = some 0 ∧
    (parseOBJ c2doc).indices.get? 3 = some 1 := by
  decide

/-! ### Claim C6: negative index resolution -/

/-- The position records declared by `v` lines, in document order. -/
def vRecords (lines : List ObjLine) : List (List JNum) :=
  lines.filterMap fun l =>
    match l with
    | ObjLine.v ts => some ((ts.take 3).map parseFloatTok)
    | _ => none

theorem stepLine_positions (s : ObjState) (l : ObjLine) :
    (stepLine s l).positions = s.positions ++ vRecords [l] := by
  cases l with
  | v ts => rfl
  | vt ts => simp [stepLine, vRecords]
  | vn ts => simp [stepLine, vRecords]
  | skip => simp [stepLine, vRecords]
  | usemtl m => simp [stepLine, vRecords, startGeometry_positions]
  | face cs =>
      show (addFace (if s.geometry.isNone then startGeometry s (some "default") else s)
        (cs.map cornerIdx)).positions = _
      rw [addFace_positions]
      by_cases hn : s.geometry.isNone
      · rw [if_pos hn, startGeometry_positions]
        simp [vRecords]
      · rw [if_neg hn]
        simp [vRecords]

theorem vRecords_cons (l : ObjLine) (tl : List ObjLine) :
    vRecords (l :: tl) = vRecords [l] ++ vRecords tl := by
  cases l <;> simp [vRecords, List.filterMap_cons]

theorem foldl_stepLine_positions (lines : List ObjLine) :
    ∀ s : ObjState, (lines.foldl stepLine s).positions = s.positions ++ vRecords lines := by
  induction lines with
  | nil => intro s; simp [vRecords]
  | cons l tl ih =>
      intro s
      rw [List.foldl_cons, ih, stepLine_positions, List.append_assoc, ← vRecords_cons]

theorem parseOBJState_positions (lines : List ObjLine) :
    (parseOBJState lines).positions
      = [JNum.val 0, JNum.val 0, JNum.val 0] :: vRecords lines := by
  rw [parseOBJState, closeG_positions, foldl_stepLine_positions]
  rfl

theorem getD_eq_of_lt {α : Type} (l : List α) (d1 d2 : α) (n : Nat) (h : n < l.length) :
    l.getD n d1 = l.getD n d2 := by
  induction l generalizing n with
  | nil => simp at h
  | cons x tl ih =>
      cases n with
      | zero => rfl
      | succ n2 =>
          simp only [List.getD_cons_succ]
          refine ih n2 ?_
          simp only [List.length_cons] at h
          omega

theorem getLast?_eq_getD {α : Type} (l : List α) (d : α) (h : l ≠ []) :
    l.getLast? = some (l.getD (l.length - 1) d) := by
  induction l with
  | nil => cases h rfl
  | cons x tl ih =>
      cases tl with
      | nil => rfl
      | cons y tl2 =>
          rw [List.getLast?_cons_cons, ih (by simp)]
          have hl : (x :: y :: tl2).length - 1 = ((y :: tl2).length - 1) + 1 := by
            simp
          rw [hl, List.getD_cons_succ]

/-- Claim C6: after any document prefix that declared `m ≥ k ≥ 1` positions,
a face-corner position reference `-k` resolves to raw array slot `m+1-k`,
which holds the k-th most recently declared position record; in particular
`-1` resolves to the most recently declared position. -/
theorem C6_negative_index_resolution (lines : List ObjLine) (k : Nat)
    (h1 : 1 ≤ k) (h2 : k ≤ (vRecords lines).length) :
    resolveIdx (parseOBJState lines).positions.length (some (-(k : Int)))
        = JKey.idx (((vRecords lines).length + 1 - k : Nat)) ∧
    fetchRec (parseOBJState lines).positions [JNum.val 0, JNum.val 0, JNum.val 0]
        (resolveIdx (parseOBJState lines).positions.length (some (-(k : Int))))
        = (vRecords lines).getD ((vRecords lines).length - k) [] ∧
    (k = 1 →
      some (fetchRec (parseOBJState lines).positions [JNum.val 0, JNum.val 0, JNum.val 0]
          (resolveIdx (parseOBJState lines).positions.length (some (-(k : Int)))))
        = (vRecords lines).getLast?) := by
  have hpos := parseOBJState_positions lines
  have hlen : (parseOBJState lines).positions.length = (vRecords lines).length + 1 := by
    rw [hpos]
    simp
  have hres : resolveIdx (parseOBJState lines).positions.length (some (-(k : Int)))
      = JKey.idx (((vRecords lines).length + 1 - k : Nat)) := by
    rw [hlen, resolveIdx]
    have hnot : ¬(0 < -(k : Int)) := by omega
    rw [if_neg hnot]
    congr 1
    omega
  have hfetch : fetchRec (parseOBJState lines).positions [JNum.val 0, JNum.val 0, JNum.val 0]
      (resolveIdx (parseOBJState lines).positions.length (some (-(k : Int))))
      = (vRecords lines).getD ((vRecords lines).length - k) [] := by
    rw [hres, fetchRec]
    have hge : (0 : Int) ≤ (((vRecords lines).length + 1 - k : Nat) : Int) := by omega
    rw [if_pos hge, hpos]
    have hnat : ((((vRecords lines).length + 1 - k : Nat) : Int)).toNat
        = ((vRecords lines).length - k) + 1 := by omega
    rw [hnat, List.getD_cons_succ]
    exact getD_eq_of_lt _ _ _ _ (by omega)
  refine ⟨hres, hfetch, ?_⟩
  intro hk1
  rw [hfetch, hk1]
  have hne : vRecords lines ≠ [] := by
    intro h0
    rw [h0] at h2
    simp at h2
    omega
  rw [getLast?_eq_getD (vRecords lines) [] hne]

/-! ### Claim C4: malformed numeric tokens -/

/-- A document whose first position record has a malformed x token
(`v a 0 0`), followed by a good position and a face referencing index 1. -/
def c4doc : List ObjLine :=
  [ObjLine.v [Tok.word "a", Tok.num 0, Tok.num 0],
   ObjLine.v [Tok.num 1, Tok.num 2, Tok.num 3],
   ObjLine.face [[Tok.num 1], [Tok.num 1], [Tok.num 1]]]

/-- `c4doc` with the malformed line removed. -/
def c4docAbsent : List ObjLine := c4doc.tail

/-- Claim C4 counterexample: the effect of the malformed line `v a 0 0` is
not skipped — it appends a `[NaN, 0, 0]` position record that still occupies
index slot 1, so the parse result differs from the one with the line absent
(the face's vertex gets position `[NaN, 0, 0]` instead of `[1, 2, 3]`). -/
theorem C4_skip_cex :
    parseOBJ c4doc ≠ parseOBJ c4docAbsent ∧
    (parseOBJ c4doc).positions = [JNum.nan, JNum.val 0, JNum.val 0] ∧
    (parseOBJ c4docAbsent).positions = [JNum.val 1, JNum.val 2, JNum.val 3] := by
  decide

/-- No property line occurs before the first `newmtl` (the flag tracks
whether a current material exists). -/
def orphanFree : Bool → List MtlLine → Bool
  | _, [] => true
  | _, MtlLine.newmtl _ :: tl => orphanFree true tl
  | b, MtlLine.skipM :: tl => orphanFree b tl
  | b, MtlLine.lNs _ :: tl => b && orphanFree b tl
  | b, MtlLine.lKa _ :: tl => b && orphanFree b tl
  | b, MtlLine.lKd _ :: tl => b && orphanFree b tl
  | b, MtlLine.lKs _ :: tl => b && orphanFree b tl
  | b, MtlLine.lKe _ :: tl => b && orphanFree b tl
  | b, MtlLine.lNi _ :: tl => b && orphanFree b tl
  | b, MtlLine.lD _ :: tl => b && orphanFree b tl
  | b, MtlLine.lIllum _ :: tl => b && orphanFree b tl
  | b, MtlLine.lMapKd _ :: tl => b && orphanFree b tl
  | b, MtlLine.lMapBump _ :: tl => b && orphanFree b tl
  | b, MtlLine.lMapKs _ :: tl => b && orphanFree b tl

theorem updCur_ok (st : MtlState) (f : Mtl → Mtl) (h : st.current.isSome = true) :
    ∃ st2, updCur st f = Except.ok st2 ∧ st2.current.isSome = true := by
  obtain ⟨nm, hc⟩ := Option.isSome_iff_exists.mp h
  obtain ⟨n, m⟩ := nm
  refine ⟨{ st with current := some (n, f m) }, ?_, rfl⟩
  unfold updCur
  rw [hc]

theorem runMtl_ok (lines : List MtlLine) :
    ∀ st : MtlState, orphanFree st.current.isSome lines = true →
      ∃ st2, runMtl st lines = Except.ok st2 := by
  induction lines with
  | nil => intro st _; exact ⟨st, rfl⟩
  | cons l tl ih =>
      intro st h
      cases l with
      | newmtl n =>
          rw [orphanFree] at h
          rw [runMtl, stepMtlLine]
          exact ih { done := flushMtl st, current := some (n, {}) } h
      | skipM =>
          rw [orphanFree] at h
          rw [runMtl, stepMtlLine]
          exact ih st h
      | lNs ts =>
          rw [orphanFree, Bool.and_eq_true] at h
          obtain ⟨st2, hok, hsome⟩ := updCur_ok st _ h.1
          rw [runMtl, stepMtlLine, hok]
          refine ih st2 ?_
          rw [hsome]
          rw [h.1] at h
          exact h.2
      | lKa ts =>
          rw [orphanFree, Bool.and_eq_true] at h
          obtain ⟨st2, hok, hsome⟩ := updCur_ok st _ h.1
          rw [runMtl, stepMtlLine, hok]
          refine ih st2 ?_
          rw [hsome]
          rw [h.1] at h
          exact h.2
      | lKd ts =>
          rw [orphanFree, Bool.and_eq_true] at h
          obtain ⟨st2, hok, hsome⟩ := updCur_ok st _ h.1
          rw [runMtl, stepMtlLine, hok]
          refine ih st2 ?_
          rw [hsome]
          rw [h.1] at h
          exact h.2
      | lKs ts =>
          rw [orphanFree, Bool.and_eq_true] at h
          obtain ⟨st2, hok, hsome⟩ := updCur_ok st _ h.1
          rw [runMtl, stepMtlLine, hok]
          refine ih st2 ?_
          rw [hsome]
          rw [h.1] at h
          exact h.2
      | lKe ts =>
          rw [orphanFree, Bool.and_eq_true] at h
          obtain ⟨st2, hok, hsome⟩ := updCur_ok st _ h.1
          rw [runMtl, stepMtlLine, hok]
          refine ih st2 ?_
          rw [hsome]
          rw [h.1] at h
          exact h.2
      | lNi ts =>
          rw [orphanFree, Bool.and_eq_true] at h
          obtain ⟨st2, hok, hsome⟩ := updCur_ok st _ h.1
          rw [runMtl, stepMtlLine, hok]
          refine ih st2 ?_
          rw [hsome]
          rw [h.1] at h
          exact h.2
      | lD ts =>
          rw [orphanFree, Bool.and_eq_true] at h
          obtain ⟨st2, hok, hsome⟩ := updCur_ok st _ h.1
          rw [runMtl, stepMtlLine, hok]
          refine ih st2 ?_
          rw [hsome]
          rw [h.1] at h
          exact h.2
      | lIllum ts =>
          rw [orphanFree, Bool.and_eq_true] at h
          obtain ⟨st2, hok, hsome⟩ := updCur_ok st _ h.1
          rw [runMtl, stepMtlLine, hok]
          refine ih st2 ?_
          rw [hsome]
          rw [h.1] at h
          exact h.2
      | lMapKd p =>
          rw [orphanFree, Bool.and_eq_true] at h
          obtain ⟨st2, hok, hsome⟩ := updCur_ok st _ h.1
          rw [runMtl, stepMtlLine, hok]
          refine ih st2 ?_
          rw [hsome]
          rw [h.1] at h
          exact h.2
      | lMapBump p =>
          rw [orphanFree, Bool.and_eq_true] at h
          obtain ⟨st2, hok, hsome⟩ := updCur_ok st _ h.1
          rw [runMtl, stepMtlLine, hok]
          refine ih st2 ?_
          rw [hsome]
          rw [h.1] at h
          exact h.2
      | lMapKs p =>
          rw [orphanFree, Bool.and_eq_true] at h
          obtain ⟨st2, hok, hsome⟩ := updCur_ok st _ h.1
          rw [runMtl, stepMtlLine, hok]
          refine ih st2 ?_
          rw [hsome]
          rw [h.1] at h
          exact h.2

/-- Claim C4 (amended): parsing never aborts on malformed numeric tokens,
but the offending line's effect is not skipped.  (1) A `v` line with a
malformed x token still appends a position record `[NaN, ...]` occupying an
index slot; (2) an `Ns` record parsed to NaN is indistinguishable from an
absent `Ns` only after material resolution (the NaN coalesces to the
default); (3) the MTL parser returns a result on every document whose
property lines are all preceded by some `newmtl` (malformed numerics never
abort it). -/
theorem C4_malformed_amended :
    (∀ (s : ObjState) (w : String) (t2 t3 : Tok),
        (stepLine s (ObjLine.v [Tok.word w, t2, t3])).positions
          = s.positions ++ [[JNum.nan, parseFloatTok t2, parseFloatTok t3]]) ∧
    (∀ m : Mtl, m.shininess = some JNum.nan →
        resolveMtl (some m) = resolveMtl (some { m with shininess := none })) ∧
    (∀ lines : List MtlLine, orphanFree false lines = true →
        ∃ ms, parseMTL lines = Except.ok ms) := by
  refine ⟨?_, ?_, ?_⟩
  · intro s w t2 t3
    rfl
  · intro m hm
    simp [resolveMtl, hm, jsOrNum, jTruthy]
  · intro lines h
    obtain ⟨st2, hok⟩ := runMtl_ok lines { done := [], current := none } h
    exact ⟨flushMtl st2, by rw [parseMTL, hok]; rfl⟩

/-- A material document with one malformed `Ns` record. -/
def c4mtl : List MtlLine := [MtlLine.newmtl "m", MtlLine.lNs [Tok.word "abc"]]

/-- The parsed material with only a NaN shininess. -/
def c4mtlNaN : Mtl := { shininess := some JNum.nan }

/-- Witness for the amended C4 at concrete inputs. -/
theorem C4_malformed_amended_witness :
    ((stepLine initObjState (ObjLine.v [Tok.word "a", Tok.num 0, Tok.num 0])).positions
        = initObjState.positions ++ [[JNum.nan, parseFloatTok (Tok.num 0), parseFloatTok (Tok.num 0)]]) ∧
    (c4mtlNaN.shininess = some JNum.nan ∧
      resolveMtl (some c4mtlNaN) = resolveMtl (some { c4mtlNaN with shininess := none })) ∧
    (orphanFree false c4mtl = true ∧ ∃ ms, parseMTL c4mtl = Except.ok ms) :=
  ⟨C4_malformed_amended.1 initObjState "a" (Tok.num 0) (Tok.num 0),
   ⟨rfl, C4_malformed_amended.2.1 c4mtlNaN rfl⟩,
   ⟨by decide, C4_malformed_amended.2.2 c4mtl (by decide)⟩⟩

/-! ### Claims C5 and C10: material defaulting -/

/-- The fully defaulted material, as synthesized for an unknown name. -/
def defaultResolvedMtl : ResolvedMtl :=
  { shininess := JNum.val 32
    ambient := [JNum.val 1, JNum.val 1, JNum.val 1]
    diffuse := [JNum.val 0.64, JNum.val 0.64, JNum.val 0.64]
    specular := [JNum.val 0.2, JNum.val 0.2, JNum.val 0.2]
    opacity := JNum.val 1
    illum := JNum.val 2
    emissive := none
    opticalDensity := none
    map_Kd := none
    map_Bump := none
    map_Ks := none }

/-- A material carrying only an `Ns 0` record. -/
def nsOnlyZero : Mtl := { shininess := some (JNum.val 0) }

/-- Claim C5 counterexample: for a material with only `Ns` set, the resolved
shininess does NOT always keep the parsed `Ns` value — `Ns 0` parses to
shininess 0, but `|| 32.0` treats 0 as falsy and the resolved material gets
32 instead. -/
theorem C5_shininess_zero_cex :
    nsOnlyZero.shininess = some (JNum.val 0) ∧
    (resolveMtl (some nsOnlyZero)).shininess = JNum.val 32 ∧
    (resolveMtl (some nsOnlyZero)).shininess ≠ JNum.val 0 := by
  decide

/-- Claim C5 (amended): a span whose material name misses the mapping gets
the full default material; a material with only `Ns` set gets exactly the
default ambient `[1,1,1]`, diffuse `[0.64,0.64,0.64]`, specular
`[0.2,0.2,0.2]`, opacity 1.0 and illum 2, and keeps the parsed `Ns` value
provided that value is truthy (not 0 and not NaN); a falsy `Ns` is replaced
by the default 32. -/
theorem C5_material_defaults (ms : List (String × Mtl)) (nm : Option String) (v : JNum)
    (habs : lookupName ms nm = none) (hv : jTruthy v = true) :
    resolveMtl (lookupName ms nm) = defaultResolvedMtl ∧
    resolveMtl (some { shininess := some v }) =
      { defaultResolvedMtl with shininess := v } := by
  constructor
  · rw [habs]
    rfl
  · simp [resolveMtl, defaultResolvedMtl, jsOrNum, jsOrVec, hv]

/-- Witness for the amended C5: empty mapping, name `x`, `Ns 7`. -/
theorem C5_material_defaults_witness :
    (lookupName [] (some "x") = none ∧ jTruthy (JNum.val 7) = true) ∧
    (resolveMtl (lookupName [] (some "x")) = defaultResolvedMtl ∧
     resolveMtl (some { shininess := some (JNum.val 7) }) =
       { defaultResolvedMtl with shininess := JNum.val 7 }) :=
  ⟨⟨rfl, by decide⟩, C5_material_defaults [] (some "x") (JNum.val 7) rfl (by decide)⟩

/-- Claim C10: material defaulting uses falsy coalescing, not an absence
test — an explicit zero opacity (`d 0`), shininess (`Ns 0`) or `illum 0` is
replaced by the field default (1.0, 32.0, 2 respectively), making the
resolved material identical to one that omitted the field; the same
coalescing also applies to the shininess uniform upload of
`setupPlantMaterial`. -/
theorem C10_falsy_zero_defaults (m : Mtl) :
    (m.opacity = some (JNum.val 0) →
        (resolveMtl (some m)).opacity = JNum.val 1 ∧
        resolveMtl (some m) = resolveMtl (some { m with opacity := none })) ∧
    (m.shininess = some (JNum.val 0) →
        (resolveMtl (some m)).shininess = JNum.val 32 ∧
        resolveMtl (some m) = resolveMtl (some { m with shininess := none })) ∧
    (m.illum = some (JNum.val 0) →
        (resolveMtl (some m)).illum = JNum.val 2 ∧
        resolveMtl (some m) = resolveMtl (some { m with illum := none })) ∧
    (∀ r : ResolvedMtl, r.shininess = JNum.val 0 →
        jsOrJNum r.shininess 32 = JNum.val 32) := by
  refine ⟨?_, ?_, ?_, ?_⟩
  · intro h
    constructor
    · simp [resolveMtl, h, jsOrNum, jTruthy]
    · simp [resolveMtl, h, jsOrNum, jTruthy]
  · intro h
    constructor
    · simp [resolveMtl, h, jsOrNum, jTruthy]
    · simp [resolveMtl, h, jsOrNum, jTruthy]
  · intro h
    constructor
    · simp [resolveMtl, h, jsOrNum, jTruthy]
    · simp [resolveMtl, h, jsOrNum, jTruthy]
  · intro r h
    simp [jsOrJNum, h, jTruthy]

/-- A material with explicit zeros in all three scalar fields. -/
def allZeroMtl : Mtl :=
  { shininess := some (JNum.val 0), opacity := some (JNum.val 0), illum := some (JNum.val 0) }

/-- Witness for C10 at the explicit-zero material. -/
theorem C10_falsy_zero_defaults_witness :
    (allZeroMtl.opacity = some (JNum.val 0) ∧
     allZeroMtl.shininess = some (JNum.val 0) ∧
     allZeroMtl.illum = some (JNum.val 0)) ∧
    ((resolveMtl (some allZeroMtl)).opacity = JNum.val 1 ∧
      resolveMtl (some allZeroMtl) = resolveMtl (some { allZeroMtl with opacity := none })) ∧
    ((resolveMtl (some allZeroMtl)).shininess = JNum.val 32 ∧
      resolveMtl (some allZeroMtl) = resolveMtl (some { allZeroMtl with shininess := none })) ∧
    ((resolveMtl (some allZeroMtl)).illum = JNum.val 2 ∧
      resolveMtl (some allZeroMtl) = resolveMtl (some { allZeroMtl with illum := none })) ∧
    jsOrJNum (JNum.val 0) 32 = JNum.val 32 :=
  ⟨⟨rfl, rfl, rfl⟩,
   (C10_falsy_zero_defaults allZeroMtl).1 rfl,
   (C10_falsy_zero_defaults allZeroMtl).2.1 rfl,
   (C10_falsy_zero_defaults allZeroMtl).2.2.1 rfl,
   (C10_falsy_zero_defaults allZeroMtl).2.2.2 { defaultResolvedMtl with shininess := JNum.val 0 } rfl⟩

/-- A document declaring two positions around a `vt` record. -/
def c6doc : List ObjLine :=
  [ObjLine.v [Tok.num 1, Tok.num 1, Tok.num 1],
   ObjLine.vt [Tok.num 0, Tok.num 0],
   ObjLine.v [Tok.num 2, Tok.num 2, Tok.num 2]]

/-- Witness for C6 with `k = 1` on `c6doc`: `-1` resolves to slot 2, the
most recently declared position `[2,2,2]`. -/
theorem C6_negative_index_resolution_witness :
    (1 ≤ 1 ∧ 1 ≤ (vRecords c6doc).length) ∧
    (resolveIdx (parseOBJState c6doc).positions.length (some (-((1 : Nat) : Int)))
        = JKey.idx (((vRecords c6doc).length + 1 - 1 : Nat)) ∧
     fetchRec (parseOBJState c6doc).positions [JNum.val 0, JNum.val 0, JNum.val 0]
        (resolveIdx (parseOBJState c6doc).positions.length (some (-((1 : Nat) : Int))))
        = (vRecords c6doc).getD ((vRecords c6doc).length - 1) [] ∧
     ((1 : Nat) = 1 →
       some (fetchRec (parseOBJState c6doc).positions [JNum.val 0, JNum.val 0, JNum.val 0]
           (resolveIdx (parseOBJState c6doc).positions.length (some (-((1 : Nat) : Int)))))
         = (vRecords c6doc).getLast?)) :=
  ⟨⟨le_refl 1, by decide⟩,
   C6_negative_index_resolution c6doc 1 (le_refl 1) (by decide)⟩

/-! ### Claim C7: PBR energy split at metallic = 1 -/

theorem vadd_zero_term (a x : Vec3) (c : ℚ) :
    vadd (vdiv (vmul (vconst 0) a) c) x = x := by
  obtain ⟨a1, a2, a3⟩ := a
  obtain ⟨x1, x2, x3⟩ := x
  simp [vadd, vdiv, vmul, vconst]

/-- Claim C7: in the fragment shader's energy split `kS = F`,
`kD = (1 - kS) * (1 - metallic)`, a fragment with sampled metallic 1 gets
`kD = 0` for every Fresnel value `F`, so the diffuse term `kD * albedo / PI`
of the outgoing radiance vanishes and `Lo` reduces to the specular term
alone. -/
theorem C7_metallic_one_kd_zero :
    (∀ F : Vec3, kdFactor F 1 = vconst 0) ∧
    (∀ p : FragIn, p.metallic = 1 →
      shadeKD p = vconst 0 ∧
      shadeLo p = vscale (shadeNdotL p) (vmul (shadeSpecular p) (shadeRadiance p))) := by
  have hk : ∀ F : Vec3, kdFactor F 1 = vconst 0 := by
    intro F
    obtain ⟨a, b, c⟩ := F
    simp [kdFactor, vscale, vsub, vconst]
  refine ⟨hk, fun p hm => ?_⟩
  have h1 : shadeKD p = vconst 0 := by
    rw [shadeKD, hm]
    exact hk _
  refine ⟨h1, ?_⟩
  rw [shadeLo, h1, vadd_zero_term]

/-- A concrete fragment with metallic 1. -/
def fragMetallic : FragIn :=
  { albedo := (1, 0, 0)
    metallic := 1
    roughness := 1/2
    ao := 1
    specularColor := (1, 1, 1)
    N := (0, 0, 1)
    V := (0, 0, 1)
    L := (0, 0, 1)
    H := (0, 0, 1)
    lightColor := (1, 1, 1)
    lightIntensity := 2
    ambientColor := (1, 1, 1)
    ambientIntensity := 1 }

/-- Witness for C7 at a concrete fragment. -/
theorem C7_metallic_one_kd_zero_witness :
    fragMetallic.metallic = 1 ∧
    (shadeKD fragMetallic = vconst 0 ∧
     shadeLo fragMetallic
        = vscale (shadeNdotL fragMetallic)
            (vmul (shadeSpecular fragMetallic) (shadeRadiance fragMetallic))) :=
  ⟨rfl, C7_metallic_one_kd_zero.2 fragMetallic rfl⟩

/-! ### Claim C8: camera state bounds -/

/-- Invariant of the camera state: the configured bounds hold their
constructor values and pitch/distance lie within them. -/
def camInvariant (c : CameraS) : Prop :=
  c.MIN_DISTANCE = 0 ∧ c.MAX_DISTANCE = 10000 ∧
  -89 ≤ c.rotationX ∧ c.rotationX ≤ 89 ∧
  c.MIN_DISTANCE ≤ c.distance ∧ c.distance ≤ c.MAX_DISTANCE

theorem camStep_invariant (c : CameraS) (e : CamEvent) (h : camInvariant c) :
    camInvariant (camStep c e) := by
  obtain ⟨hmin, hmax, h1, h2, h3, h4⟩ := h
  cases e with
  | pointerlockchange l => exact ⟨hmin, hmax, h1, h2, h3, h4⟩
  | mousedown => exact ⟨hmin, hmax, h1, h2, h3, h4⟩
  | contextmenu => exact ⟨hmin, hmax, h1, h2, h3, h4⟩
  | mousemove buttons dx dy =>
      show camInvariant (if !c.isPointerLocked then c else _)
      split
      · exact ⟨hmin, hmax, h1, h2, h3, h4⟩
      · split
        · refine ⟨hmin, hmax, le_max_left _ _, ?_, h3, h4⟩
          exact max_le (by norm_num) (min_le_left _ _)
        · split
          · refine ⟨hmin, hmax, h1, h2, le_max_left _ _, ?_⟩
            refine max_le ?_ (min_le_left _ _)
            rw [hmin, hmax]
            norm_num
          · split
            · exact ⟨hmin, hmax, h1, h2, h3, h4⟩
            · exact ⟨hmin, hmax, h1, h2, h3, h4⟩

theorem foldl_camStep_invariant (evs : List CamEvent) :
    ∀ c : CameraS, camInvariant c → camInvariant (evs.foldl camStep c) := by
  induction evs with
  | nil => intro c h; exact h
  | cons e tl ih =>
      intro c h
      rw [List.foldl_cons]
      exact ih _ (camStep_invariant c e h)

/-- Claim C8: after any sequence of input events starting from the
constructed camera, the pitch `rotationX` lies in `[-89, 89]` and the orbit
distance lies in the configured `[MIN_DISTANCE, MAX_DISTANCE]` range; no
event can violate either bound. -/
theorem C8_camera_bounds (evs : List CamEvent) :
    -89 ≤ (evs.foldl camStep initCamera).rotationX ∧
    (evs.foldl camStep initCamera).rotationX ≤ 89 ∧
    (evs.foldl camStep initCamera).MIN_DISTANCE ≤ (evs.foldl camStep initCamera).distance ∧
    (evs.foldl camStep initCamera).distance ≤ (evs.foldl camStep initCamera).MAX_DISTANCE := by
  have h0 : camInvariant initCamera := by
    refine ⟨rfl, rfl, ?_, ?_, ?_, ?_⟩ <;> norm_num [initCamera]
  have h := foldl_camStep_invariant evs initCamera h0
  exact ⟨h.2.2.1, h.2.2.2.1, h.2.2.2.2.1, h.2.2.2.2.2⟩

/-! ### Claim C9: plant draw lighting override and restoration -/

/-- The plant-specific light/ambient override uploaded by
`setupPlantMaterial`. -/
def plantOverride (u : GLUniforms) : Prop :=
  u.lightColor = (0.4, 0.5, 0.3) ∧ u.lightIntensity = 2.2 ∧
  u.ambientColor = (0.15, 0.2, 0.15) ∧ u.ambientIntensity = 0.05

theorem foldl_drawMeshStep (meshes : List PlantMesh) :
    (∀ mesh ∈ meshes, mesh.material.isSome = true) →
    ∀ (u : GLUniforms) (evs : List DrawEvent),
      u.useSpecular = 1 →
      (∀ ev ∈ evs, ev.isPlant = true → ev.u.useSpecular = 1 ∧ plantOverride ev.u) →
      (meshes.foldl drawMeshStep (u, evs)).1.useSpecular = 1 ∧
      ∀ ev ∈ (meshes.foldl drawMeshStep (u, evs)).2, ev.isPlant = true →
        ev.u.useSpecular = 1 ∧ plantOverride ev.u := by
  induction meshes with
  | nil =>
      intro _ u evs hu hevs
      exact ⟨hu, hevs⟩
  | cons mesh tl ih =>
      intro hm u evs hu hevs
      rw [List.foldl_cons]
      have hmesh : mesh.material.isSome = true := hm mesh (List.mem_cons_self _ _)
      obtain ⟨mm, hmm⟩ := Option.isSome_iff_exists.mp hmesh
      have hstep : drawMeshStep (u, evs) mesh
          = (setupPlantMaterial u mm,
             evs ++ [{ isPlant := true, startIndex := mesh.startIndex,
                       indexCount := mesh.indexCount, u := setupPlantMaterial u mm }]) := by
        simp [drawMeshStep, hmm]
      rw [hstep]
      refine ih (fun m hm2 => hm m (List.mem_cons_of_mem _ hm2)) _ _ ?_ ?_
      · show u.useSpecular = 1
        exact hu
      · intro ev hev hp
        rcases List.mem_append.mp hev with h1 | h2
        · exact hevs ev h1 hp
        · rw [List.mem_singleton.mp h2]
          exact ⟨hu, rfl, rfl, rfl, rfl⟩

/-- Claim C9: in every frame that draws the plant, each plant submesh draw
carries the specular toggle on and the overridden plant light/ambient
configuration; the scene-level light color, light intensity, ambient color
and ambient intensity uniforms are restored to the `CONFIG` values at the
end of the frame (identically to a frame without the plant), and the sphere
draw of any frame observes exactly the `CONFIG` lighting with the specular
toggle off, whether or not a plant is drawn. -/
theorem C9_plant_lighting_restore (u0 : GLUniforms) (meshes : List PlantMesh)
    (hm : ∀ mesh ∈ meshes, mesh.material.isSome = true) :
    (∀ ev ∈ (renderFrame u0 (some meshes)).2, ev.isPlant = true →
        ev.u.useSpecular = 1 ∧ plantOverride ev.u) ∧
    lightUniforms (renderFrame u0 (some meshes)).1 = CONFIG_lights ∧
    lightUniforms (renderFrame u0 none).1 = CONFIG_lights ∧
    (∀ pm : Option (List PlantMesh),
      ((renderFrame u0 pm).2.head?).map (fun ev => (ev.u.useSpecular, lightUniforms ev.u))
        = some (0, CONFIG_lights)) := by
  have hdraw := foldl_drawMeshStep meshes hm
      { updateUniforms u0 with useSpecular := 1 } [] rfl
      (fun ev h => (List.not_mem_nil ev h).elim)
  refine ⟨?_, rfl, rfl, ?_⟩
  · intro ev hev hplant
    rcases List.mem_cons.mp hev with h1 | h2
    · rw [h1] at hplant
      cases hplant
    · exact hdraw.2 ev h2 hplant
  · intro pm
    cases pm with
    | none => rfl
    | some ms => rfl

/-- A one-mesh plant model with the default material, and an arbitrary
starting uniform store. -/
def plantWitness : List PlantMesh :=
  [{ material := some defaultResolvedMtl, startIndex := 0, indexCount := 3 }]

/-- A starting uniform store for the C9 witness. -/
def u0Witness : GLUniforms :=
  { useSpecular := 0, lightColor := (0, 0, 0), lightIntensity := 0,
    ambientColor := (0, 0, 0), ambientIntensity := 0, shininess := JNum.val 0 }

/-- Witness for C9 at a concrete frame. -/
theorem C9_plant_lighting_restore_witness :
    (∀ mesh ∈ plantWitness, mesh.material.isSome = true) ∧
    ((∀ ev ∈ (renderFrame u0Witness (some plantWitness)).2, ev.isPlant = true →
        ev.u.useSpecular = 1 ∧ plantOverride ev.u) ∧
     lightUniforms (renderFrame u0Witness (some plantWitness)).1 = CONFIG_lights ∧
     lightUniforms (renderFrame u0Witness none).1 = CONFIG_lights ∧
     (∀ pm : Option (List PlantMesh),
       ((renderFrame u0Witness pm).2.head?).map
           (fun ev => (ev.u.useSpecular, lightUniforms ev.u))
         = some (0, CONFIG_lights))) :=
  ⟨by decide, C9_plant_lighting_restore u0Witness plantWitness (by decide)⟩
